import Mathlib

/-!
Formal model of `kitsune/users/auth.py` (authentication backends of the
kitsune application) and verification of its behavioural properties.

The module under study contains four pieces:

* `ModelBackendAllowInactive` — a credential check that always accepts;
* `TokenLoginBackend` / `get_auth_str` — byte-level one-time login
  credentials, `base64('{username}:{token}')`;
* `SumoOIDCAuthBackend` and `FXAAuthBackend` — two OIDC backends sharing
  one callback route, dispatching on the request path;
* the `FXAAuthBackend` hook overrides `create_user`, `update_user`,
  `filter_users_by_claims`, `get_userinfo`.

The code is Python 2 / Django.  Python strings handled by the token
backend are modelled as byte lists (`List Nat`, each element `< 256`);
strings of the FxA claim machinery are modelled as Lean `String`s.
Exceptions that escape a function are modelled with `Except PyError`;
an exception that the source catches is folded into the normal return
value exactly where the `try/except` sits in the source.
-/

/-- Exception kinds that can escape the modelled functions. -/
inductive PyError where
  | valueError
  | multipleObjectsReturned
  | relatedObjectDoesNotExist
  deriving DecidableEq

/-! ## Base64 (Python 2 `base64.b64encode` / `b64decode`)

`b64decode` models Python 2's `base64.b64decode`, which delegates to
`binascii.a2b_base64`: characters outside the base64 alphabet and the
padding character are discarded, the remaining quads are decoded, and a
leftover that is not a correctly padded quad raises `TypeError`
(modelled as `none`; the caller in `TokenLoginBackend.authenticate`
catches exactly that exception).
-/

/-- Value of a base64 alphabet character, `none` for a non-alphabet byte. -/
def charToSextet (c : Nat) : Option Nat :=
  if 65 ≤ c ∧ c ≤ 90 then some (c - 65)
  else if 97 ≤ c ∧ c ≤ 122 then some (c - 97 + 26)
  else if 48 ≤ c ∧ c ≤ 57 then some (c - 48 + 52)
  else if c = 43 then some 62
  else if c = 47 then some 63
  else none

/-- Base64 alphabet character of a 6-bit value. -/
def sextetToChar (n : Nat) : Nat :=
  if n < 26 then n + 65
  else if n < 52 then n - 26 + 97
  else if n < 62 then n - 52 + 48
  else if n = 62 then 43
  else 47

/-- `base64.b64encode`: 3 input bytes become 4 alphabet characters, a
final 1- or 2-byte group is completed with `'='` (byte 61) padding. -/
def b64encode : List Nat → List Nat
  | a :: b :: c :: rest =>
      sextetToChar (a / 4) :: sextetToChar (a % 4 * 16 + b / 16) ::
      sextetToChar (b % 16 * 4 + c / 64) :: sextetToChar (c % 64) :: b64encode rest
  | [a, b] => [sextetToChar (a / 4), sextetToChar (a % 4 * 16 + b / 16), sextetToChar (b % 16 * 4), 61]
  | [a] => [sextetToChar (a / 4), sextetToChar (a % 4 * 16), 61, 61]
  | [] => []

/-- Decode a stream of base64 alphabet / padding characters quad by
quad; any badly padded tail yields `none` (`TypeError` in Python 2). -/
def decodeQuads : List Nat → Option (List Nat)
  | [] => some []
  | c1 :: c2 :: c3 :: c4 :: rest =>
    (charToSextet c1).bind fun s1 =>
    (charToSextet c2).bind fun s2 =>
    if c3 = 61 then
      if c4 = 61 ∧ rest = [] then some [s1 * 4 + s2 / 16] else none
    else
      (charToSextet c3).bind fun s3 =>
      if c4 = 61 then
        if rest = [] then some [s1 * 4 + s2 / 16, s2 % 16 * 16 + s3 / 4] else none
      else
        (charToSextet c4).bind fun s4 =>
        (decodeQuads rest).map fun bs =>
          (s1 * 4 + s2 / 16) :: (s2 % 16 * 16 + s3 / 4) :: (s3 % 4 * 64 + s4) :: bs
  | _ => none

/-- Keep a byte iff `binascii.a2b_base64` does not discard it. -/
def keepB64 (c : Nat) : Bool := (charToSextet c).isSome || c == 61

/-- `base64.b64decode`: discard foreign bytes, decode the quads,
`none` models the `TypeError` raised on incorrect padding. -/
def b64decode (s : List Nat) : Option (List Nat) :=
  decodeQuads (s.filter keepB64)

theorem charToSextet_sextetToChar (n : Nat) (h : n < 64) :
    charToSextet (sextetToChar n) = some n := by
  unfold sextetToChar charToSextet
  split_ifs <;> first | (exact congrArg some (by omega)) | omega

theorem sextetToChar_ne_61 (n : Nat) : sextetToChar n ≠ 61 := by
  unfold sextetToChar
  split_ifs <;> omega

theorem keepB64_sextetToChar (n : Nat) : keepB64 (sextetToChar n) = true := by
  unfold keepB64 charToSextet sextetToChar
  split_ifs <;> simp_all <;> omega

theorem keepB64_61 : keepB64 61 = true := by decide

theorem filter_b64encode (s : List Nat) : (b64encode s).filter keepB64 = b64encode s := by
  induction s using b64encode.induct with
  | case1 a b c rest ih =>
    simp [b64encode, List.filter, keepB64_sextetToChar, ih]
  | case2 a b =>
    simp [b64encode, List.filter, keepB64_sextetToChar, keepB64_61]
  | case3 a =>
    simp [b64encode, List.filter, keepB64_sextetToChar, keepB64_61]
  | case4 =>
    simp [b64encode]

theorem decodeQuads_b64encode (s : List Nat) :
    (∀ x ∈ s, x < 256) → decodeQuads (b64encode s) = some s := by
  induction s using b64encode.induct with
  | case1 a b c rest ih =>
    intro h
    have ha : a < 256 := h a (by simp)
    have hb : b < 256 := h b (by simp)
    have hc : c < 256 := h c (by simp)
    have r1 := charToSextet_sextetToChar (a / 4) (by omega)
    have r2 := charToSextet_sextetToChar (a % 4 * 16 + b / 16) (by omega)
    have r3 := charToSextet_sextetToChar (b % 16 * 4 + c / 64) (by omega)
    have r4 := charToSextet_sextetToChar (c % 64) (by omega)
    have n3 := sextetToChar_ne_61 (b % 16 * 4 + c / 64)
    have n4 := sextetToChar_ne_61 (c % 64)
    have e1 : a / 4 * 4 + (a % 4 * 16 + b / 16) / 16 = a := by omega
    have e2 : (a % 4 * 16 + b / 16) % 16 * 16 + (b % 16 * 4 + c / 64) / 4 = b := by omega
    have e3 : (b % 16 * 4 + c / 64) % 4 * 64 + c % 64 = c := by omega
    have hrest : ∀ x ∈ rest, x < 256 := by intro x hx; exact h x (by simp [hx])
    simp only [b64encode, decodeQuads, r1, r2, r3, r4, Option.some_bind, if_neg n3, if_neg n4,
      ih hrest, Option.map_some', e1, e2, e3]
  | case2 a b =>
    intro h
    have ha : a < 256 := h a (by simp)
    have hb : b < 256 := h b (by simp)
    have r1 := charToSextet_sextetToChar (a / 4) (by omega)
    have r2 := charToSextet_sextetToChar (a % 4 * 16 + b / 16) (by omega)
    have r3 := charToSextet_sextetToChar (b % 16 * 4) (by omega)
    have n3 := sextetToChar_ne_61 (b % 16 * 4)
    have e1 : a / 4 * 4 + (a % 4 * 16 + b / 16) / 16 = a := by omega
    have e2 : (a % 4 * 16 + b / 16) % 16 * 16 + b % 16 * 4 / 4 = b := by omega
    simp only [b64encode, decodeQuads, r1, r2, r3, Option.some_bind, if_neg n3, if_pos rfl,
      and_self, ite_true, e1, e2]
  | case3 a =>
    intro h
    have ha : a < 256 := h a (by simp)
    have r1 := charToSextet_sextetToChar (a / 4) (by omega)
    have r2 := charToSextet_sextetToChar (a % 4 * 16) (by omega)
    have e1 : a / 4 * 4 + a % 4 * 16 / 16 = a := by omega
    simp only [b64encode, decodeQuads, r1, r2, Option.some_bind, if_pos rfl, and_self, ite_true, e1]
  | case4 =>
    intro _
    simp [b64encode, decodeQuads]

theorem b64decode_b64encode (s : List Nat) (h : ∀ x ∈ s, x < 256) :
    b64decode (b64encode s) = some s := by
  rw [b64decode, filter_b64encode, decodeQuads_b64encode s h]

/-! ## Python `str.split(':')` on byte strings -/

/-- `decoded.split(':')` with no maxsplit: split on every colon
(byte 58), keeping empty fragments. -/
def splitColon (s : List Nat) : List (List Nat) :=
  match s with
  | [] => [[]]
  | c :: rest =>
    match splitColon rest with
    | [] => [[]]
    | h :: t => if c = 58 then [] :: h :: t else (c :: h) :: t

theorem splitColon_ne_nil (s : List Nat) : splitColon s ≠ [] := by
  cases s with
  | nil => simp [splitColon]
  | cons c rest =>
    simp only [splitColon]
    match splitColon rest with
    | [] => simp
    | h :: t => split_ifs <;> simp

theorem splitColon_no_colon (s : List Nat) (h : ¬ 58 ∈ s) : splitColon s = [s] := by
  induction s with
  | nil => rfl
  | cons c rest ih =>
    have hc : c ≠ 58 := by intro e; exact h (by simp [e])
    have hrest : ¬ 58 ∈ rest := by intro e; exact h (by simp [e])
    simp only [splitColon, ih hrest]
    simp [hc]

theorem splitColon_single (u t : List Nat) (hu : ¬ 58 ∈ u) (ht : ¬ 58 ∈ t) :
    splitColon (u ++ 58 :: t) = [u, t] := by
  induction u with
  | nil => simp [splitColon, splitColon_no_colon t ht]
  | cons c rest ih =>
    have hc : c ≠ 58 := by intro e; exact hu (by simp [e])
    have hrest : ¬ 58 ∈ rest := by intro e; exact hu (by simp [e])
    have ihh := ih hrest
    rw [List.cons_append, splitColon, ihh]
    simp [hc]

theorem splitColon_length (s : List Nat) :
    (splitColon s).length = (s.filter (fun c => c == 58)).length + 1 := by
  induction s with
  | nil => rfl
  | cons c rest ih =>
    simp only [splitColon]
    match hrec : splitColon rest with
    | [] => exact absurd hrec (splitColon_ne_nil rest)
    | h :: t =>
      rw [hrec] at ih
      by_cases hc : c = 58
      · simp [hc, List.filter, ih]
      · simp only [if_neg hc, List.filter]
        simp only [List.length_cons] at ih ⊢
        have : (c == 58) = false := by simp [hc]
        simp [this, ih]

/-! ## Decimal digit strings (the login token body)

`django.contrib.auth.tokens.default_token_generator` produces a token
that is a deterministic function of the user's primary key, password
hash and last-login timestamp, and `check_token` accepts a token
exactly when it reproduces the token for the user's *current* state.
The generator itself lives in Django, outside this repository; it is
modelled as an injective, colon-free rendering of an abstract
`authState : Nat` that stands for the (last-login, password-hash) pair.
-/

/-- Little-endian decimal digits of `n` as ASCII bytes; `fuel`
structurally bounds the recursion (`fuel = n` suffices). -/
def digitsFuel : Nat → Nat → List Nat
  | 0, _ => []
  | _ + 1, 0 => []
  | fuel + 1, n + 1 => ((n + 1) % 10 + 48) :: digitsFuel fuel ((n + 1) / 10)

/-- ASCII decimal rendering of a natural number, most significant
digit first. -/
def natToDigits (n : Nat) : List Nat :=
  match n with
  | 0 => [48]
  | m + 1 => (digitsFuel (m + 1) (m + 1)).reverse

/-- Numeric value of a little-endian ASCII digit list. -/
def valDigitsLE : List Nat → Nat
  | [] => 0
  | d :: ds => (d - 48) + 10 * valDigitsLE ds

theorem valDigitsLE_digitsFuel (fuel : Nat) :
    ∀ n, n ≤ fuel → valDigitsLE (digitsFuel fuel n) = n := by
  induction fuel with
  | zero => intro n hn; interval_cases n; rfl
  | succ fuel ih =>
    intro n hn
    match n with
    | 0 => rfl
    | m + 1 =>
      have hdiv : (m + 1) / 10 ≤ fuel := by omega
      simp only [digitsFuel, valDigitsLE, ih _ hdiv]
      omega

theorem natToDigits_injective (a b : Nat) (h : natToDigits a = natToDigits b) : a = b := by
  have key : ∀ n : Nat, valDigitsLE (natToDigits n).reverse = n := by
    intro n
    match n with
    | 0 => rfl
    | m + 1 =>
      simp only [natToDigits, List.reverse_reverse]
      exact valDigitsLE_digitsFuel (m + 1) (m + 1) le_rfl
  have := key a
  rw [h, key b] at this
  omega

theorem natToDigits_mem (n : Nat) : ∀ d ∈ natToDigits n, 48 ≤ d ∧ d ≤ 57 := by
  have aux : ∀ fuel m, ∀ d ∈ digitsFuel fuel m, 48 ≤ d ∧ d ≤ 57 := by
    intro fuel
    induction fuel with
    | zero => intro m d hd; simp [digitsFuel] at hd
    | succ fuel ih =>
      intro m d hd
      match m with
      | 0 => simp [digitsFuel] at hd
      | k + 1 =>
        simp only [digitsFuel, List.mem_cons] at hd
        rcases hd with h | h
        · omega
        · exact ih _ d h
  intro d hd
  match n with
  | 0 => simp [natToDigits] at hd; omega
  | m + 1 =>
    simp only [natToDigits, List.mem_reverse] at hd
    exact aux _ _ d hd

theorem natToDigits_no_colon (n : Nat) : ¬ 58 ∈ natToDigits n := by
  intro h
  have := natToDigits_mem n 58 h
  omega

theorem natToDigits_lt_256 (n : Nat) : ∀ d ∈ natToDigits n, d < 256 := by
  intro d hd
  have := natToDigits_mem n d hd
  omega

/-! ## `TokenLoginBackend` and `get_auth_str`

The Django `User` table as seen by the token login backend: primary
key, username (a byte string in Python 2) and the abstract
last-login/password state the token generator binds to.  Django
enforces uniqueness of usernames at the database level; theorems take
it as the well-formedness hypothesis `uniqueUsernames`.
-/

structure TokenUser where
  id : Nat
  username : List Nat
  authState : Nat
  deriving DecidableEq

structure TokenDb where
  users : List TokenUser
  deriving DecidableEq

/-- Database-enforced uniqueness of `User.username`. -/
def uniqueUsernames (db : TokenDb) : Prop :=
  db.users.Pairwise (fun a b => a.username ≠ b.username)

/-- Modelled from Django's `default_token_generator.make_token`: a
deterministic, colon-free, injective function of the user's
last-login/password state. -/
def make_token (u : TokenUser) : List Nat :=
  natToDigits u.authState

/-- Modelled from Django's `default_token_generator.check_token`:
accept exactly the token generated from the user's current state. -/
def check_token (u : TokenUser) (t : List Nat) : Bool :=
  t == make_token u

/-- `get_auth_str(user)` : base64-encode `'{username}:{token}'`
(lines 89-93 of `kitsune/users/auth.py`). -/
def get_auth_str (u : TokenUser) : List Nat :=
  b64encode (u.username ++ 58 :: make_token u)

/-- `TokenLoginBackend.authenticate` (lines 60-78).  The `try/except`
around `b64decode` maps the decode failure to `None`; the missing
separator, unknown username and failed token check also return `None`.
The tuple unpacking `username, token = decoded.split(':')` raises
`ValueError` when the split does not have exactly two parts, and
`User.objects.get` raises `MultipleObjectsReturned` on duplicate
usernames; neither is caught by the source. -/
def TokenLoginBackend.authenticate (db : TokenDb) (auth : List Nat) :
    Except PyError (Option TokenUser) :=
  match b64decode auth with
  | none => .ok none
  | some decoded =>
    if ¬ 58 ∈ decoded then .ok none
    else
      match splitColon decoded with
      | [username, token] =>
        match db.users.filter (fun u => u.username == username) with
        | [] => .ok none
        | [user] => if check_token user token then .ok (some user) else .ok none
        | _ => .error .multipleObjectsReturned
      | _ => .error .valueError

/-- A password change or a new login moves the token-relevant state of
the user row `id` to a new value (Django regenerates the token hash
input from `last_login` and the password hash). -/
def setAuthState (db : TokenDb) (id : Nat) (s : Nat) : TokenDb :=
  { db with users := db.users.map (fun v => if v.id = id then { v with authState := s } else v) }

theorem filter_username_self (l : List TokenUser)
    (hl : l.Pairwise (fun a b => a.username ≠ b.username))
    (u : TokenUser) (hu : u ∈ l) :
    l.filter (fun v => v.username == u.username) = [u] := by
  induction l with
  | nil => cases hu
  | cons a l ih =>
    rcases List.pairwise_cons.mp hl with ⟨ha, hl'⟩
    rcases List.mem_cons.mp hu with rfl | hu'
    · have hnil : l.filter (fun v => v.username == u.username) = [] := by
        rw [List.filter_eq_nil_iff]
        intro b hb
        simp only [beq_iff_eq]
        exact fun e => ha b hb e.symm
      simp [List.filter_cons, hnil]
    · have hne : (a.username == u.username) = false := by
        simp only [beq_eq_false_iff_ne, ne_eq]
        exact ha u hu'
      simp [List.filter_cons, hne, ih hl' hu']

theorem filter_username_cases (l : List TokenUser)
    (hl : l.Pairwise (fun a b => a.username ≠ b.username)) (name : List Nat) :
    l.filter (fun v => v.username == name) = [] ∨
      ∃ u, u ∈ l ∧ l.filter (fun v => v.username == name) = [u] := by
  by_cases h : ∃ u ∈ l, u.username = name
  · rcases h with ⟨u, hu, hname⟩
    right
    exact ⟨u, hu, by rw [← hname]; exact filter_username_self l hl u hu⟩
  · left
    rw [List.filter_eq_nil_iff]
    intro b hb
    simp only [beq_iff_eq]
    exact fun e => h ⟨b, hb, e⟩


/-- C2 (amended): for every credential whose decoded form contains at
most one ':' separator, `TokenLoginBackend.authenticate` returns
either the matching user or `None` and never raises; malformed base64,
a decoded string without ':', an unknown username and a token mismatch
all yield `None`.  (A decoded string with two or more ':' instead
raises an uncaught unpacking `ValueError`, see the counterexample.) -/
theorem tokenlogin_single_separator_never_raises (db : TokenDb) (auth : List Nat)
    (hwf : uniqueUsernames db)
    (hone : ∀ d, b64decode auth = some d → (d.filter (fun c => c == 58)).length ≤ 1) :
    (TokenLoginBackend.authenticate db auth = .ok none ∨
      ∃ u, u ∈ db.users ∧ TokenLoginBackend.authenticate db auth = .ok (some u)) ∧
    (b64decode auth = none → TokenLoginBackend.authenticate db auth = .ok none) ∧
    (∀ d, b64decode auth = some d → ¬ 58 ∈ d →
      TokenLoginBackend.authenticate db auth = .ok none) ∧
    (∀ d un tok, b64decode auth = some d → splitColon d = [un, tok] →
      (∀ u ∈ db.users, u.username ≠ un) → TokenLoginBackend.authenticate db auth = .ok none) ∧
    (∀ d un tok, b64decode auth = some d → splitColon d = [un, tok] →
      (∀ u ∈ db.users, check_token u tok = false) →
      TokenLoginBackend.authenticate db auth = .ok none) := by
  refine ⟨?_, ?_, ?_, ?_, ?_⟩
  · cases hdec : b64decode auth with
    | none => exact Or.inl (by simp [TokenLoginBackend.authenticate, hdec])
    | some d =>
      by_cases hmem : 58 ∈ d
      · have hcount1 : 1 ≤ (d.filter (fun c => c == 58)).length := by
          have h58 : 58 ∈ d.filter (fun c => c == 58) := List.mem_filter.mpr ⟨hmem, by decide⟩
          exact List.length_pos.mpr (fun e => by rw [e] at h58; cases h58)
        have hcount : (d.filter (fun c => c == 58)).length = 1 :=
          le_antisymm (hone d hdec) hcount1
        have hlen : (splitColon d).length = 2 := by
          rw [splitColon_length, hcount]
        match hsp : splitColon d with
        | [] => rw [hsp] at hlen; cases hlen
        | [x] => rw [hsp] at hlen; cases hlen
        | x :: y :: z :: t => rw [hsp] at hlen; simp at hlen
        | [un, tok] =>
          rcases filter_username_cases db.users hwf un with hnil | ⟨u, hu, hufil⟩
          · exact Or.inl (by simp [TokenLoginBackend.authenticate, hdec, hmem, hsp, hnil])
          · by_cases hchk : check_token u tok
            · exact Or.inr ⟨u, hu,
                by simp [TokenLoginBackend.authenticate, hdec, hmem, hsp, hufil, hchk]⟩
            · exact Or.inl
                (by simp [TokenLoginBackend.authenticate, hdec, hmem, hsp, hufil, hchk])
      · exact Or.inl (by simp [TokenLoginBackend.authenticate, hdec, hmem])
  · intro hdec
    simp [TokenLoginBackend.authenticate, hdec]
  · intro d hdec hmem
    simp [TokenLoginBackend.authenticate, hdec, hmem]
  · intro d un tok hdec hsp hun
    by_cases hmem : 58 ∈ d
    · have hnil : db.users.filter (fun u => u.username == un) = [] := by
        rw [List.filter_eq_nil_iff]
        intro b hb
        simp only [beq_iff_eq]
        exact hun b hb
      simp [TokenLoginBackend.authenticate, hdec, hmem, hsp, hnil]
    · simp [TokenLoginBackend.authenticate, hdec, hmem]
  · intro d un tok hdec hsp hchk
    by_cases hmem : 58 ∈ d
    · rcases filter_username_cases db.users hwf un with hnil | ⟨u, hu, hufil⟩
      · simp [TokenLoginBackend.authenticate, hdec, hmem, hsp, hnil]
      · simp [TokenLoginBackend.authenticate, hdec, hmem, hsp, hufil, hchk u hu]
    · simp [TokenLoginBackend.authenticate, hdec, hmem]

/-- C2 (counterexample): the credential `'YTpiOmM='`, the base64
encoding of `'a:b:c'`, makes `TokenLoginBackend.authenticate` raise an
uncaught `ValueError` from the tuple unpacking
`username, token = decoded.split(':')` instead of returning a user or
`None`. -/
theorem tokenlogin_two_separator_raises :
    b64decode [89, 84, 112, 105, 79, 109, 77, 61] = some [97, 58, 98, 58, 99] ∧
    TokenLoginBackend.authenticate ⟨[]⟩ [89, 84, 112, 105, 79, 109, 77, 61] =
      .error .valueError :=
  ⟨rfl, rfl⟩

/-- C2 (witness): the amended theorem applied to a concrete database
and the empty credential string. -/
theorem tokenlogin_single_separator_never_raises_witness :
    TokenLoginBackend.authenticate ⟨[⟨1, [97], 5⟩]⟩ [] = .ok none :=
  (tokenlogin_single_separator_never_raises ⟨[⟨1, [97], 5⟩]⟩ []
    (by simp [uniqueUsernames])
    (by intro d hd; cases hd; decide)).2.2.1 [] rfl (by decide)

/-- C3: encoding a user's credential with `get_auth_str` and passing
it straight to `TokenLoginBackend.authenticate` returns that same
user; once the user's last-login/password state changes (password
change or new login), the old credential authenticates as `None`.
Hypotheses: the user is in the database, usernames are unique (a
database constraint), and the username is a byte string without the
':' separator (as every Django-validated username is). -/
theorem get_auth_str_roundtrip (db : TokenDb) (u : TokenUser)
    (hu : u ∈ db.users) (hwf : uniqueUsernames db)
    (hbytes : ∀ c ∈ u.username, c < 256) (hcolon : ¬ 58 ∈ u.username) :
    TokenLoginBackend.authenticate db (get_auth_str u) = .ok (some u) ∧
    (∀ s, s ≠ u.authState →
      TokenLoginBackend.authenticate (setAuthState db u.id s) (get_auth_str u) = .ok none) := by
  have hall : ∀ c ∈ u.username ++ 58 :: make_token u, c < 256 := by
    intro c hc
    rcases List.mem_append.mp hc with h | h
    · exact hbytes c h
    · rcases List.mem_cons.mp h with rfl | h
      · omega
      · exact natToDigits_lt_256 u.authState c h
  have hdec : b64decode (get_auth_str u) = some (u.username ++ 58 :: make_token u) :=
    b64decode_b64encode _ hall
  have hmem : 58 ∈ u.username ++ 58 :: make_token u := by simp
  have hsp : splitColon (u.username ++ 58 :: make_token u) = [u.username, make_token u] :=
    splitColon_single _ _ hcolon (natToDigits_no_colon u.authState)
  constructor
  · have hfil := filter_username_self db.users hwf u hu
    have hchk : check_token u (make_token u) = true := by
      unfold check_token
      exact beq_self_eq_true _
    simp [TokenLoginBackend.authenticate, hdec, hmem, hsp, hfil, hchk]
  · intro s hs
    set g := fun v : TokenUser => if v.id = u.id then { v with authState := s } else v with hg
    have hgname : ∀ v : TokenUser, (g v).username = v.username := by
      intro v
      by_cases h : v.id = u.id <;> simp [hg, h]
    have hwf' : (db.users.map g).Pairwise (fun a b => a.username ≠ b.username) := by
      rw [List.pairwise_map]
      exact hwf.imp (by intro a b hab; rw [hgname a, hgname b]; exact hab)
    have hgu : g u ∈ db.users.map g := List.mem_map_of_mem g hu
    have hfil : (db.users.map g).filter (fun v => v.username == u.username) = [g u] := by
      have hh := filter_username_self (db.users.map g) hwf' (g u) hgu
      rw [hgname u] at hh
      exact hh
    have hgu_eq : g u = { u with authState := s } := by simp [hg]
    have hchk : check_token (g u) (make_token u) = false := by
      rw [hgu_eq]
      unfold check_token make_token
      simp only [beq_eq_false_iff_ne, ne_eq]
      intro e
      exact hs (natToDigits_injective _ _ e).symm
    simp [TokenLoginBackend.authenticate, setAuthState, hdec, hmem, hsp, hfil, hchk]

/-- C3 (witness): the round trip evaluated on a one-user database,
username `'a'`, then the same credential after the state moved. -/
theorem get_auth_str_roundtrip_witness :
    TokenLoginBackend.authenticate ⟨[⟨1, [97], 5⟩]⟩ (get_auth_str ⟨1, [97], 5⟩) =
      .ok (some ⟨1, [97], 5⟩) ∧
    TokenLoginBackend.authenticate (setAuthState ⟨[⟨1, [97], 5⟩]⟩ 1 6)
      (get_auth_str ⟨1, [97], 5⟩) = .ok none := by
  have h := get_auth_str_roundtrip ⟨[⟨1, [97], 5⟩]⟩ ⟨1, [97], 5⟩
    (by simp) (by simp [uniqueUsernames]) (by decide) (by decide)
  exact ⟨h.1, h.2 6 (by decide)⟩

/-! ## The FxA / OIDC side: data model

The Django entities touched by `SumoOIDCAuthBackend` and
`FXAAuthBackend` (user, profile, product catalog), the request/session
state, the identity-provider claims dictionary and the relevant
settings.  String-valued Python values are modelled as `String`;
a dictionary entry that can be absent is an `Option`.
-/

/-- `django.contrib.auth.models.User` as used by the FxA backend.
`email` is `Option String` because the code assigns
`claims.get('email')` to it, which can be `None`. -/
structure User where
  id : Nat
  username : String
  email : Option String
  is_staff : Bool
  is_superuser : Bool
  deriving DecidableEq

/-- `kitsune.users.models.Profile` (one-to-one with `User`): the
migration/federation fields written by the backend.  `products` holds
the codenames of the related `Product` rows (the m2m set). -/
structure Profile where
  user_id : Nat
  is_fxa_migrated : Bool
  fxa_uid : Option String
  fxa_avatar : String
  name : String
  locale : String
  products : List String
  deriving DecidableEq

/-- Persistent state: user rows, profile rows and the `Product`
catalog (by codename). -/
structure Db where
  users : List User
  profiles : List Profile
  products : List String
  deriving DecidableEq

/-- The request session keys the backend reads or writes. -/
structure Session where
  oidc_login_next : Option String
  is_contributor : Bool
  deriving DecidableEq

/-- The request object: path, the (possibly anonymous) user attached
by the auth middleware together with its `is_authenticated()` value,
the session, and the request locale. -/
structure Request where
  path : String
  user : Option User
  userAuthenticated : Bool
  session : Session
  LANGUAGE_CODE : String
  deriving DecidableEq

/-- The identity-provider claims dictionary.  `locale` is doubly
optional: the key can be absent (`none`) or present with value `None`
(`some none`); the code handles both via `claims.get('locale', '') or ''`. -/
structure Claims where
  uid : Option String
  email : Option String
  avatar : Option String
  displayName : Option String
  subscriptions : Option (List String)
  locale : Option (Option String)
  deriving DecidableEq

/-- The Django settings read by the backends. -/
structure Settings where
  SUMO_LANGUAGES : List String
  LANGUAGE_CODE : String
  FXA_OP_SUBSCRIPTION_ENDPOINT : Option String
  deriving DecidableEq

/-- `reverse('users.edit_my_profile')`: the reversed URL is opaque
here; the route name stands for it. -/
def editMyProfileUrl : String := "users.edit_my_profile"

/-- Error message of the duplicate-FxA-uid rejection (line 218). -/
def uidConflictMsg : String := "This Firefox Account is already used in another profile."

/-- Error message of the duplicate-email rejection (lines 234-235). -/
def emailConflictMsg : String := "The email used with this Firefox Account is already linked in another profile."

/-- `claims.get('locale', '') or ''` : absent key and `None` both
collapse to the empty string. -/
def pyLocaleOrEmpty (l : Option (Option String)) : String :=
  match l with
  | none => ""
  | some none => ""
  | some (some s) => s

/-- `str.split(',')` with no maxsplit, over the character list: split
on every comma, keeping empty fragments. -/
def splitCommaChars (s : List Char) : List (List Char) :=
  match s with
  | [] => [[]]
  | c :: rest =>
    match splitCommaChars rest with
    | [] => [[]]
    | h :: t => if c = ',' then [] :: h :: t else (c :: h) :: t

/-- `(claims.get('locale', '') or '').split(',')[0]` (line 134). -/
def fxaLocaleOf (claims : Claims) : String :=
  ⟨(splitCommaChars (pyLocaleOrEmpty claims.locale).data).headD []⟩

/-- `user.profile` : the one-to-one lookup, first row with this user id. -/
def findProfile (db : Db) (uid : Nat) : Option Profile :=
  db.profiles.find? (fun p => p.user_id == uid)

/-- `user.save()` : update the row with this primary key. -/
def saveUser (db : Db) (u : User) : Db :=
  { db with users := db.users.map (fun v => if v.id = u.id then u else v) }

/-- `profile.save()` on an existing row: update by user id. -/
def saveProfile (db : Db) (p : Profile) : Db :=
  { db with profiles := db.profiles.map (fun q => if q.user_id = p.user_id then p else q) }

/-- `profile.products.clear(); profile.products.add(*products)` :
replace the m2m set of the profile row of `uid`. -/
def setProducts (db : Db) (uid : Nat) (prods : List String) : Db :=
  { db with profiles := db.profiles.map (fun q => if q.user_id = uid then { q with products := prods } else q) }

/-- A fresh primary key for `User` rows. -/
def freshId (db : Db) : Nat :=
  db.users.foldr (fun u m => max u.id m) 0 + 1

/-- A `Profile` row as freshly created by
`Profile.objects.get_or_create(user=user)`; every field relevant to
the claims is overwritten immediately afterwards by `create_user`. -/
def newProfile (uid : Nat) : Profile :=
  { user_id := uid, is_fxa_migrated := false, fxa_uid := none, fxa_avatar := "",
    name := "", locale := "", products := [] }

/-- Modelled from `mozilla_django_oidc`'s
`OIDCAuthenticationBackend.create_user`: create a Django user with a
library-generated username and the claimed email.  The username
derivation is library-internal and irrelevant to the claims; it is
modelled by the claimed email. -/
def baseCreateUser (db : Db) (claims : Claims) : User :=
  { id := freshId db, username := (claims.email.getD ""), email := claims.email,
    is_staff := false, is_superuser := false }

/-- Modelled from `mozilla_django_oidc`'s
`OIDCAuthenticationBackend.filter_users_by_claims`: match users whose
email equals the claimed email case-insensitively
(`email__iexact`); a missing or empty claimed email matches no user. -/
def baseFilterUsersByClaims (db : Db) (claims : Claims) : List User :=
  match claims.email with
  | none => []
  | some e =>
    if e = "" then []
    else db.users.filter (fun u =>
      match u.email with
      | some ue => ue.toLower == e.toLower
      | none => false)

/-- `self.request and self.request.user and self.request.user.is_authenticated()`
(line 169): the authenticated session user, if any. -/
def authedUserOf (req : Option Request) : Option User :=
  match req with
  | none => none
  | some r =>
    match r.user with
    | none => none
    | some u => if r.userAuthenticated then some u else none

/-- The users whose profile stores the claimed FxA uid (line 172). -/
def uidMatchedUsers (db : Db) (fxa_uid : Option String) : List User :=
  db.users.filter (fun u =>
    db.profiles.any (fun p => p.user_id == u.id && p.fxa_uid == fxa_uid))

/-! ## The two path-dispatched `authenticate` overrides

`base` stands for the result of
`super(...).authenticate(request, **kwargs)` — the OIDC code-flow
machinery of `mozilla_django_oidc`, which is outside this repository —
and `cb` for `django_reverse('oidc_authentication_callback')`, the
shared callback route either override compares against.
-/

/-- `SumoOIDCAuthBackend.authenticate` (lines 98-107): decline (return
`None`) whenever a request is present whose path is *not* the OIDC
callback route, else delegate to the base class. -/
def SumoOIDCAuthBackend.authenticate (cb : String) (req : Option Request)
    (base : Option User) : Option User :=
  match req with
  | some r => if ¬ r.path = cb then none else base
  | none => base

/-- `FXAAuthBackend.authenticate` (lines 258-267): decline (return
`None`) whenever a request is present whose path *is* the OIDC
callback route, else delegate to the base class. -/
def FXAAuthBackend.authenticate (cb : String) (req : Option Request)
    (base : Option User) : Option User :=
  match req with
  | some r => if r.path = cb then none else base
  | none => base

/-- `FXAAuthBackend.filter_users_by_claims` (lines 156-178).  Returns
the candidate list plus whether the missing-uid warning was logged. -/
def FXAAuthBackend.filter_users_by_claims (db : Db) (req : Option Request)
    (claims : Claims) : List User × Bool :=
  let fxa_uid := claims.uid
  if fxa_uid = none ∨ fxa_uid = some "" then
    ([], true)
  else
    match authedUserOf req with
    | some u => ([u], false)
    | none =>
      let users := uidMatchedUsers db fxa_uid
      if users = [] then (baseFilterUsersByClaims db claims, false) else (users, false)

/-- Outcome of the subscription-endpoint fetch: a transport error
(`requests.exceptions.RequestException`) or an HTTP response carrying
a status code and the optional `subscriptions` JSON field. -/
inductive SubResponse where
  | failure
  | response (status : Nat) (subs : Option (List String))
  deriving DecidableEq

/-- `FXAAuthBackend.get_userinfo` (lines 180-204).  `base` is the
user-info dictionary from the base class, `fetch url authHeader` the
outcome of `requests.get` on that url with that Authorization header.
The second component of the result records the request performed, if
any.  A 4xx/5xx status makes `raise_for_status` raise, which the
`except RequestException` catches like a transport error. -/
def FXAAuthBackend.get_userinfo (cfg : Settings) (fetch : String → String → SubResponse)
    (accessToken : String) (base : Claims) : Claims × Option (String × String) :=
  if cfg.FXA_OP_SUBSCRIPTION_ENDPOINT = none ∨ cfg.FXA_OP_SUBSCRIPTION_ENDPOINT = some "" then
    (base, none)
  else
    let endpoint := cfg.FXA_OP_SUBSCRIPTION_ENDPOINT.getD ""
    let authHeader := "Bearer " ++ accessToken
    match fetch endpoint authHeader with
    | .failure => (base, some (endpoint, authHeader))
    | .response status subs =>
      if 400 ≤ status ∧ status < 600 then (base, some (endpoint, authHeader))
      else ({ base with subscriptions := some (subs.getD []) }, some (endpoint, authHeader))

/-- Result of `FXAAuthBackend.create_user`: the created user, the
persisted state, the mutated request (session writes), the
`messages.info` texts, and the language the `add_to_contributors`
side effect ran with (if it ran). -/
structure CreateResult where
  user : User
  db : Db
  request : Request
  infoMsgs : List String
  contributorLang : Option String
  deriving DecidableEq

/-- `FXAAuthBackend.create_user` (lines 120-154): create the user via
the base class, get-or-create its profile, mark it migrated, copy uid,
avatar, display name, validate the locale against
`settings.SUMO_LANGUAGES` falling back to `settings.LANGUAGE_CODE`,
save, replace the product set from the subscription codenames, point
the post-login redirect at the profile editor, and run the
contributor flow if the session asked for it. -/
def FXAAuthBackend.create_user (cfg : Settings) (db : Db) (req : Request)
    (claims : Claims) : CreateResult :=
  let user := baseCreateUser db claims
  let db0 : Db := { db with users := db.users ++ [user] }
  let created := (findProfile db0 user.id).isNone
  let profile0 := (findProfile db0 user.id).getD (newProfile user.id)
  let db1 : Db := if created then { db0 with profiles := db0.profiles ++ [profile0] } else db0
  let subscriptions := claims.subscriptions.getD []
  let fxa_locale := fxaLocaleOf claims
  let profile1 : Profile := { profile0 with
    is_fxa_migrated := true,
    fxa_uid := claims.uid,
    fxa_avatar := claims.avatar.getD "",
    name := claims.displayName.getD "",
    locale := if cfg.SUMO_LANGUAGES.contains fxa_locale then fxa_locale else cfg.LANGUAGE_CODE }
  let db2 := saveProfile db1 profile1
  let newProducts := db2.products.filter (fun c => subscriptions.contains c)
  let db3 := setProducts db2 user.id newProducts
  let req1 : Request := { req with session := { req.session with oidc_login_next := some editMyProfileUrl } }
  if req1.session.is_contributor then
    { user := user, db := db3,
      request := { req1 with session := { req1.session with is_contributor := false } },
      infoMsgs := ["fxa_notification_created"],
      contributorLang := some req.LANGUAGE_CODE }
  else
    { user := user, db := db3, request := req1,
      infoMsgs := ["fxa_notification_created"], contributorLang := none }

/-- Result of `FXAAuthBackend.update_user`: the returned value
(`None` on a conflict, the user otherwise), the persisted state, the
session, and the flash messages. -/
structure UpdateResult where
  result : Option User
  db : Db
  session : Session
  infoMsgs : List String
  errorMsgs : List String
  deriving DecidableEq

/-- Tail of `update_user` after the two conflict gates (lines
241-256): refresh the avatar, replace the product set, adopt the
display name if the profile has none, then save user (only if its
email changed) and profile inside one transaction. -/
def updateFinish (db : Db) (sess : Session) (infos : List String) (user : User)
    (user_attr_changed : Bool) (profile : Profile) (claims : Claims)
    (subscriptions : List String) : Except PyError UpdateResult :=
  let profile1 : Profile := { profile with fxa_avatar := claims.avatar.getD "" }
  let newProducts := db.products.filter (fun c => subscriptions.contains c)
  let profile2 : Profile := { profile1 with products := newProducts }
  let profile3 : Profile := if profile2.name = "" then { profile2 with name := claims.displayName.getD "" } else profile2
  let db1 := if user_attr_changed then saveUser db user else db
  let db2 := saveProfile db1 profile3
  .ok { result := some user, db := db2, session := sess, infoMsgs := infos, errorMsgs := [] }

/-- `FXAAuthBackend.update_user` (lines 206-256).  `user.profile`
raises if the profile row is missing (modelled as the
`relatedObjectDoesNotExist` error); the duplicate-uid and
duplicate-email conflicts return `None` with an error message and
leave the database untouched; the email is assigned only for
non-staff users whose email differs and collides with nobody. -/
def FXAAuthBackend.update_user (db : Db) (sess : Session) (user : User)
    (claims : Claims) : Except PyError UpdateResult :=
  match findProfile db user.id with
  | none => .error .relatedObjectDoesNotExist
  | some profile =>
    let fxa_uid := claims.uid
    let email := claims.email
    let subscriptions := claims.subscriptions.getD []
    if ¬ profile.is_fxa_migrated ∧ db.profiles.any (fun p => p.fxa_uid == fxa_uid) then
      .ok { result := none, db := db, session := sess, infoMsgs := [],
            errorMsgs := [uidConflictMsg] }
    else
      let migrating := ¬ profile.is_fxa_migrated
      let profile1 : Profile := if migrating then { profile with is_fxa_migrated := true, fxa_uid := fxa_uid } else profile
      let sess1 : Session := if migrating then { sess with oidc_login_next := some editMyProfileUrl } else sess
      let infos1 : List String := if migrating then ["fxa_notification_updated"] else []
      if user.email ≠ email ∧ ¬ user.is_staff then
        if db.users.any (fun u2 => u2.id != user.id && u2.email == email) then
          .ok { result := none, db := db, session := sess1, infoMsgs := infos1,
                errorMsgs := [emailConflictMsg] }
        else
          updateFinish db sess1 infos1 { user with email := email } true profile1 claims subscriptions
      else
        updateFinish db sess1 infos1 user false profile1 claims subscriptions

/-- The user an `update_user` call handed back, `none` on a conflict
rejection or an escaped exception. -/
def updateResultUser (r : Except PyError UpdateResult) : Option User :=
  match r with
  | .ok r => r.result
  | .error _ => none

/-- C1: for every request with a path, exactly one of the two OIDC
backends proceeds (delegates to the base code flow) while the other
declines by returning `None`: `SumoOIDCAuthBackend` proceeds only when
the path equals the `oidc_authentication_callback` route, and
`FXAAuthBackend` proceeds exactly on every other path. -/
theorem oidc_backends_exactly_one_proceeds (cb : String) (r : Request) (base : Option User) :
    (r.path = cb →
      SumoOIDCAuthBackend.authenticate cb (some r) base = base ∧
      FXAAuthBackend.authenticate cb (some r) base = none) ∧
    (¬ r.path = cb →
      SumoOIDCAuthBackend.authenticate cb (some r) base = none ∧
      FXAAuthBackend.authenticate cb (some r) base = base) := by
  constructor <;> intro h <;>
    simp [SumoOIDCAuthBackend.authenticate, FXAAuthBackend.authenticate, h]

/-- C1 (witness): a request for a non-callback path is declined by
`SumoOIDCAuthBackend` and handled by `FXAAuthBackend`. -/
theorem oidc_backends_exactly_one_proceeds_witness :
    SumoOIDCAuthBackend.authenticate "/oidc/callback/"
      (some ⟨"/fxa/callback/", none, false, ⟨none, false⟩, "en-US"⟩)
      (some ⟨1, "bob", some "bob@example.com", false, false⟩) = none ∧
    FXAAuthBackend.authenticate "/oidc/callback/"
      (some ⟨"/fxa/callback/", none, false, ⟨none, false⟩, "en-US"⟩)
      (some ⟨1, "bob", some "bob@example.com", false, false⟩) =
      some ⟨1, "bob", some "bob@example.com", false, false⟩ :=
  (oidc_backends_exactly_one_proceeds "/oidc/callback/"
    ⟨"/fxa/callback/", none, false, ⟨none, false⟩, "en-US"⟩
    (some ⟨1, "bob", some "bob@example.com", false, false⟩)).2 (by decide)

/-- C10: with `request=None` neither backend performs its path-based
decline: both hand the call to the base class, so the
exactly-one-proceeds disambiguation only holds when a request with a
path is present. -/
theorem oidc_backends_no_request_delegate (cb : String) (base : Option User) :
    SumoOIDCAuthBackend.authenticate cb none base = base ∧
    FXAAuthBackend.authenticate cb none base = base :=
  ⟨rfl, rfl⟩

/-- C4: `filter_users_by_claims` resolves candidates in order: a
missing/empty uid logs a warning and returns no candidates; otherwise
an authenticated session user is the sole candidate; otherwise the
uid-matched users, falling back to the base class's email lookup when
that set is empty. -/
theorem filter_users_by_claims_order (db : Db) (req : Option Request) (claims : Claims) :
    (claims.uid = none ∨ claims.uid = some "" →
      FXAAuthBackend.filter_users_by_claims db req claims = ([], true)) ∧
    (¬ (claims.uid = none ∨ claims.uid = some "") →
      (∀ u, authedUserOf req = some u →
        FXAAuthBackend.filter_users_by_claims db req claims = ([u], false)) ∧
      (authedUserOf req = none →
        FXAAuthBackend.filter_users_by_claims db req claims =
          (if uidMatchedUsers db claims.uid = [] then (baseFilterUsersByClaims db claims, false)
           else (uidMatchedUsers db claims.uid, false)))) := by
  refine ⟨?_, ?_⟩
  · intro h
    simp [FXAAuthBackend.filter_users_by_claims, h]
  · intro h
    refine ⟨?_, ?_⟩
    · intro u hu
      simp [FXAAuthBackend.filter_users_by_claims, h, hu]
    · intro hnone
      simp [FXAAuthBackend.filter_users_by_claims, h, hnone]

/-- C4 (witness): an authenticated session user is the sole candidate
when the claims carry a uid. -/
theorem filter_users_by_claims_order_witness :
    FXAAuthBackend.filter_users_by_claims ⟨[], [], []⟩
      (some ⟨"/fxa/callback/", some ⟨7, "ann", some "ann@x.org", false, false⟩, true, ⟨none, false⟩, "en-US"⟩)
      ⟨some "uid-1", none, none, none, none, none⟩ =
      ([⟨7, "ann", some "ann@x.org", false, false⟩], false) :=
  ((filter_users_by_claims_order ⟨[], [], []⟩
    (some ⟨"/fxa/callback/", some ⟨7, "ann", some "ann@x.org", false, false⟩, true, ⟨none, false⟩, "en-US"⟩)
    ⟨some "uid-1", none, none, none, none, none⟩).2 (by decide)).1
    ⟨7, "ann", some "ann@x.org", false, false⟩ rfl

/-- C8: with a configured subscription endpoint, `get_userinfo`
performs the fetch with the access token as bearer credential; a
transport failure or an error status leaves the base user-info (and
its subscription data) unchanged without raising; a success replaces
the `subscriptions` entry with the freshly fetched list. -/
theorem get_userinfo_subscription_enrichment (cfg : Settings)
    (fetch : String → String → SubResponse) (accessToken : String) (base : Claims)
    (hcfg : ¬ (cfg.FXA_OP_SUBSCRIPTION_ENDPOINT = none ∨ cfg.FXA_OP_SUBSCRIPTION_ENDPOINT = some "")) :
    (FXAAuthBackend.get_userinfo cfg fetch accessToken base).2 =
      some (cfg.FXA_OP_SUBSCRIPTION_ENDPOINT.getD "", "Bearer " ++ accessToken) ∧
    (fetch (cfg.FXA_OP_SUBSCRIPTION_ENDPOINT.getD "") ("Bearer " ++ accessToken) = .failure →
      (FXAAuthBackend.get_userinfo cfg fetch accessToken base).1 = base) ∧
    (∀ status subs,
      fetch (cfg.FXA_OP_SUBSCRIPTION_ENDPOINT.getD "") ("Bearer " ++ accessToken) = .response status subs →
      400 ≤ status ∧ status < 600 →
      (FXAAuthBackend.get_userinfo cfg fetch accessToken base).1 = base) ∧
    (∀ status subs,
      fetch (cfg.FXA_OP_SUBSCRIPTION_ENDPOINT.getD "") ("Bearer " ++ accessToken) = .response status subs →
      ¬ (400 ≤ status ∧ status < 600) →
      (FXAAuthBackend.get_userinfo cfg fetch accessToken base).1 =
        { base with subscriptions := some (subs.getD []) }) := by
  refine ⟨?_, ?_, ?_, ?_⟩
  · cases hf : fetch (cfg.FXA_OP_SUBSCRIPTION_ENDPOINT.getD "") ("Bearer " ++ accessToken) with
    | failure => simp [FXAAuthBackend.get_userinfo, hcfg, hf]
    | response status subs =>
      by_cases hs : 400 ≤ status ∧ status < 600 <;>
        simp [FXAAuthBackend.get_userinfo, hcfg, hf, hs]
  · intro hf
    simp [FXAAuthBackend.get_userinfo, hcfg, hf]
  · intro status subs hf hs
    simp [FXAAuthBackend.get_userinfo, hcfg, hf, hs]
  · intro status subs hf hs
    simp [FXAAuthBackend.get_userinfo, hcfg, hf, hs]

/-- C8 (witness): a failing fetch on a configured endpoint keeps the
base user-info unchanged. -/
theorem get_userinfo_subscription_enrichment_witness :
    (FXAAuthBackend.get_userinfo ⟨["en-US"], "en-US", some "https://fxa/subs"⟩
      (fun _ _ => .failure) "tok" ⟨none, none, none, none, some ["s1"], none⟩).1 =
      ⟨none, none, none, none, some ["s1"], none⟩ :=
  (get_userinfo_subscription_enrichment ⟨["en-US"], "en-US", some "https://fxa/subs"⟩
    (fun _ _ => .failure) "tok" ⟨none, none, none, none, some ["s1"], none⟩
    (by decide)).2.1 rfl

/-- Observable outcome of an `update_user` call: the returned value,
the persisted state and the error messages; `none` when the call
raised. -/
def updateObs (r : Except PyError UpdateResult) : Option (Option User × Db × List String) :=
  match r with
  | .ok v => some (v.result, v.db, v.errorMsgs)
  | .error _ => none

/-- The persisted `User` table after an `update_user` call. -/
def updateUsersTable (r : Except PyError UpdateResult) : Option (List User) :=
  match r with
  | .ok v => some v.db.users
  | .error _ => none

/-- C5 (amended): both conflict rejections of `update_user` are atomic
with respect to stored state — if the profile is not yet migrated and
another profile already holds the claimed uid, or if the claimed email
differs, *the user is not staff*, and another user already holds that
email, the call returns `None` together with an error message and the
database (user row, profile row, both conflicting rows) is unchanged.
The non-staff condition is what the code checks before the email
conflict gate; a staff user bypasses that rejection entirely. -/
theorem update_user_conflicts_reject_atomically (db : Db) (sess : Session) (user : User)
    (claims : Claims) (profile : Profile)
    (hp : findProfile db user.id = some profile)
    (hcond :
      (¬ profile.is_fxa_migrated ∧ ∃ p ∈ db.profiles, p.user_id ≠ user.id ∧ p.fxa_uid = claims.uid)
      ∨ (user.email ≠ claims.email ∧ ¬ user.is_staff ∧
         ∃ u2 ∈ db.users, u2.id ≠ user.id ∧ u2.email = claims.email)) :
    updateObs (FXAAuthBackend.update_user db sess user claims) =
      some (none, db, [uidConflictMsg]) ∨
    updateObs (FXAAuthBackend.update_user db sess user claims) =
      some (none, db, [emailConflictMsg]) := by
  by_cases hc1 : ¬ profile.is_fxa_migrated ∧ db.profiles.any (fun p => p.fxa_uid == claims.uid)
  · left
    simp [updateObs, FXAAuthBackend.update_user, hp, hc1]
  · right
    have hcB : user.email ≠ claims.email ∧ ¬ user.is_staff ∧
        ∃ u2 ∈ db.users, u2.id ≠ user.id ∧ u2.email = claims.email := by
      rcases hcond with hA | hB
      · exfalso
        apply hc1
        refine ⟨hA.1, ?_⟩
        rcases hA.2 with ⟨p, hpmem, _, hpe⟩
        exact List.any_eq_true.mpr ⟨p, hpmem, by simp [hpe]⟩
      · exact hB
    have hany : db.users.any (fun u2 => u2.id != user.id && u2.email == claims.email) = true := by
      rcases hcB.2.2 with ⟨u2, hmem, hne, he⟩
      exact List.any_eq_true.mpr ⟨u2, hmem, by simp [hne, he]⟩
    simp only [Bool.not_eq_true, List.any_eq_true, beq_iff_eq] at hc1
    simp [updateObs, FXAAuthBackend.update_user, hp, hc1, hcB.1, hcB.2.1, hany]

/-- C5 (counterexample): a *staff* user whose claimed email collides
with another account is not rejected — `update_user` returns the user
(the claim as stated promises `None` for every such collision). -/
theorem update_user_staff_email_conflict_not_rejected :
    updateResultUser (FXAAuthBackend.update_user
      ⟨[⟨1, "u1", some "a@x", true, false⟩, ⟨2, "u2", some "b@x", false, false⟩],
       [⟨1, true, some "uid1", "", "", "en-US", []⟩], []⟩
      ⟨none, false⟩
      ⟨1, "u1", some "a@x", true, false⟩
      ⟨some "uid1", some "b@x", none, none, none, none⟩) =
      some ⟨1, "u1", some "a@x", true, false⟩ ∧
    (some "a@x" : Option String) ≠ some "b@x" ∧
    (⟨2, "u2", some "b@x", false, false⟩ : User) ∈
      [⟨1, "u1", some "a@x", true, false⟩, ⟨2, "u2", some "b@x", false, false⟩] :=
  ⟨rfl, by decide, by simp⟩

/-- C5 (witness): the amended theorem on a concrete unmigrated profile
whose claimed uid is already held by another profile. -/
theorem update_user_conflicts_reject_atomically_witness :
    updateObs (FXAAuthBackend.update_user
      ⟨[⟨1, "u1", some "a@x", false, false⟩],
       [⟨1, false, none, "", "", "en-US", []⟩, ⟨2, true, some "uidZ", "", "", "en-US", []⟩], []⟩
      ⟨none, false⟩
      ⟨1, "u1", some "a@x", false, false⟩
      ⟨some "uidZ", some "a@x", none, none, none, none⟩) =
      some (none,
        ⟨[⟨1, "u1", some "a@x", false, false⟩],
         [⟨1, false, none, "", "", "en-US", []⟩, ⟨2, true, some "uidZ", "", "", "en-US", []⟩], []⟩,
        [uidConflictMsg]) ∨
    updateObs (FXAAuthBackend.update_user
      ⟨[⟨1, "u1", some "a@x", false, false⟩],
       [⟨1, false, none, "", "", "en-US", []⟩, ⟨2, true, some "uidZ", "", "", "en-US", []⟩], []⟩
      ⟨none, false⟩
      ⟨1, "u1", some "a@x", false, false⟩
      ⟨some "uidZ", some "a@x", none, none, none, none⟩) =
      some (none,
        ⟨[⟨1, "u1", some "a@x", false, false⟩],
         [⟨1, false, none, "", "", "en-US", []⟩, ⟨2, true, some "uidZ", "", "", "en-US", []⟩], []⟩,
        [emailConflictMsg]) :=
  update_user_conflicts_reject_atomically _ _ _ _ ⟨1, false, none, "", "", "en-US", []⟩
    rfl
    (Or.inl ⟨by decide, ⟨2, true, some "uidZ", "", "", "en-US", []⟩, by simp, by decide, rfl⟩)

/-- C6 (amended): `update_user` changes the stored email to the
claimed one exactly when the claimed email differs, the user is not
*staff*, and no other user holds that email; for a staff user the
email is never changed.  The code checks only `user.is_staff`: the
superuser flag is not consulted, so a non-staff superuser's email is
updated like anyone else's (see the counterexample). -/
theorem update_user_email_update_rule (db : Db) (sess : Session) (user : User)
    (claims : Claims) (profile : Profile)
    (hp : findProfile db user.id = some profile)
    (hnoA : ¬ (¬ profile.is_fxa_migrated ∧ db.profiles.any (fun p => p.fxa_uid == claims.uid))) :
    ((user.email ≠ claims.email ∧ ¬ user.is_staff ∧
        db.users.any (fun u2 => u2.id != user.id && u2.email == claims.email) = false) →
      updateResultUser (FXAAuthBackend.update_user db sess user claims) =
        some { user with email := claims.email } ∧
      updateUsersTable (FXAAuthBackend.update_user db sess user claims) =
        some (db.users.map (fun v => if v.id = user.id then { user with email := claims.email } else v))) ∧
    (user.is_staff →
      updateResultUser (FXAAuthBackend.update_user db sess user claims) = some user ∧
      updateUsersTable (FXAAuthBackend.update_user db sess user claims) = some db.users) ∧
    (user.email = claims.email →
      updateResultUser (FXAAuthBackend.update_user db sess user claims) = some user ∧
      updateUsersTable (FXAAuthBackend.update_user db sess user claims) = some db.users) ∧
    ((user.email ≠ claims.email ∧ ¬ user.is_staff ∧
        db.users.any (fun u2 => u2.id != user.id && u2.email == claims.email) = true) →
      updateResultUser (FXAAuthBackend.update_user db sess user claims) = none ∧
      updateUsersTable (FXAAuthBackend.update_user db sess user claims) = some db.users) := by
  simp only [Bool.not_eq_true, List.any_eq_true, beq_iff_eq] at hnoA
  refine ⟨?_, ?_, ?_, ?_⟩
  · rintro ⟨hne, hstaff, hany⟩
    constructor <;>
      simp [updateResultUser, updateUsersTable, FXAAuthBackend.update_user, updateFinish,
        saveUser, saveProfile, hp, hnoA, hne, hstaff, hany]
  · intro hstaff
    constructor <;>
      simp [updateResultUser, updateUsersTable, FXAAuthBackend.update_user, updateFinish,
        saveUser, saveProfile, hp, hnoA, hstaff]
  · intro heq
    constructor <;>
      simp [updateResultUser, updateUsersTable, FXAAuthBackend.update_user, updateFinish,
        saveUser, saveProfile, hp, hnoA, heq]
  · rintro ⟨hne, hstaff, hany⟩
    constructor <;>
      simp [updateResultUser, updateUsersTable, FXAAuthBackend.update_user, updateFinish,
        saveUser, saveProfile, hp, hnoA, hne, hstaff, hany]

/-- C6 (counterexample): a superuser who is not staff has their email
changed by `update_user`, contradicting the claim that a
staff/superuser's email is never changed. -/
theorem update_user_superuser_email_changed :
    (⟨1, "u1", some "a@x", false, true⟩ : User).is_superuser = true ∧
    updateResultUser (FXAAuthBackend.update_user
      ⟨[⟨1, "u1", some "a@x", false, true⟩], [⟨1, true, some "uid1", "", "", "en-US", []⟩], []⟩
      ⟨none, false⟩
      ⟨1, "u1", some "a@x", false, true⟩
      ⟨some "uid1", some "b@x", none, none, none, none⟩) =
      some ⟨1, "u1", some "b@x", false, true⟩ :=
  ⟨rfl, rfl⟩

/-- C6 (witness): the amended rule on a concrete non-staff user whose
claimed email differs and collides with nobody. -/
theorem update_user_email_update_rule_witness :
    updateResultUser (FXAAuthBackend.update_user
      ⟨[⟨1, "u1", some "a@x", false, false⟩], [⟨1, true, some "uid1", "", "", "en-US", []⟩], []⟩
      ⟨none, false⟩
      ⟨1, "u1", some "a@x", false, false⟩
      ⟨some "uid1", some "b@x", none, none, none, none⟩) =
      some ⟨1, "u1", some "b@x", false, false⟩ :=
  ((update_user_email_update_rule
      ⟨[⟨1, "u1", some "a@x", false, false⟩], [⟨1, true, some "uid1", "", "", "en-US", []⟩], []⟩
      ⟨none, false⟩
      ⟨1, "u1", some "a@x", false, false⟩
      ⟨some "uid1", some "b@x", none, none, none, none⟩
      ⟨1, true, some "uid1", "", "", "en-US", []⟩
      rfl (by decide)).1 ⟨by decide, by decide, by decide⟩).1

theorem foldr_max_ge (l : List User) (u : User) (hu : u ∈ l) :
    u.id ≤ l.foldr (fun v m => max v.id m) 0 := by
  induction l with
  | nil => cases hu
  | cons a l ih =>
    rcases List.mem_cons.mp hu with rfl | h
    · exact le_max_left _ _
    · exact le_trans (ih h) (le_max_right _ _)

theorem freshId_gt (db : Db) (u : User) (hu : u ∈ db.users) : u.id < freshId db := by
  unfold freshId
  have := foldr_max_ge db.users u hu
  omega

theorem find?_profile_eq_none (l : List Profile) (uid : Nat)
    (h : ∀ p ∈ l, p.user_id ≠ uid) :
    l.find? (fun p => p.user_id == uid) = none := by
  apply List.find?_eq_none.mpr
  intro p hp
  simp only [beq_iff_eq]
  exact h p hp

theorem map_replace_keep (l : List Profile) (p : Profile)
    (h : ∀ q ∈ l, q.user_id ≠ p.user_id) :
    l.map (fun q => if q.user_id = p.user_id then p else q) = l := by
  induction l with
  | nil => rfl
  | cons a l ih =>
    have ha : a.user_id ≠ p.user_id := h a (by simp)
    simp only [List.map_cons, if_neg ha]
    rw [ih (fun q hq => h q (by simp [hq]))]

theorem find?_append_singleton (l : List Profile) (q : Profile) (uid : Nat)
    (h : ∀ r ∈ l, r.user_id ≠ uid) (hq : q.user_id = uid) :
    (l ++ [q]).find? (fun r => r.user_id == uid) = some q := by
  induction l with
  | nil => simp [List.find?, hq]
  | cons a l ih =>
    have ha : (a.user_id == uid) = false := by simp [h a (by simp)]
    simp only [List.cons_append, List.find?, ha]
    exact ih (fun r hr => h r (by simp [hr]))

theorem find?_map_replace (l : List Profile) (p : Profile)
    (h : ∃ q ∈ l, q.user_id = p.user_id) :
    (l.map (fun q => if q.user_id = p.user_id then p else q)).find?
      (fun q => q.user_id == p.user_id) = some p := by
  induction l with
  | nil =>
    rcases h with ⟨q, hq, _⟩
    cases hq
  | cons a l ih =>
    by_cases ha : a.user_id = p.user_id
    · simp [List.find?, ha]
    · have ha' : (a.user_id == p.user_id) = false := by simp [ha]
      simp only [List.map_cons, if_neg ha, List.find?, ha']
      apply ih
      rcases h with ⟨q, hq, he⟩
      rcases List.mem_cons.mp hq with rfl | hq'
      · exact absurd he ha
      · exact ⟨q, hq', he⟩

/-- The created user and the persisted state of a `create_user` call,
under the database invariant that every profile row references an
existing user row (the foreign-key constraint). -/
theorem create_user_shape (cfg : Settings) (db : Db) (req : Request) (claims : Claims)
    (hwfp : ∀ p ∈ db.profiles, ∃ u ∈ db.users, u.id = p.user_id) :
    (FXAAuthBackend.create_user cfg db req claims).user = baseCreateUser db claims ∧
    (FXAAuthBackend.create_user cfg db req claims).db =
      { users := db.users ++ [baseCreateUser db claims],
        profiles := db.profiles ++
          [⟨freshId db, true, claims.uid, claims.avatar.getD "", claims.displayName.getD "",
            (if cfg.SUMO_LANGUAGES.contains (fxaLocaleOf claims) then fxaLocaleOf claims
             else cfg.LANGUAGE_CODE),
            db.products.filter (fun c => (claims.subscriptions.getD []).contains c)⟩],
        products := db.products } := by
  have hfresh : ∀ p ∈ db.profiles, p.user_id ≠ freshId db := by
    intro p hp
    rcases hwfp p hp with ⟨u, hu, he⟩
    have := freshId_gt db u hu
    omega
  have hnone : findProfile { db with users := db.users ++ [baseCreateUser db claims] }
      (baseCreateUser db claims).id = none := by
    unfold findProfile
    exact find?_profile_eq_none db.profiles _ (fun p hp => by
      have := hfresh p hp
      simp only [baseCreateUser]
      omega)
  have hmap : ∀ (pr : Profile), pr.user_id = freshId db →
      db.profiles.map (fun q => if q.user_id = pr.user_id then pr else q) = db.profiles := by
    intro pr hpr
    apply map_replace_keep
    intro q hq
    rw [hpr]
    exact hfresh q hq
  have map_id_of_mem : ∀ (l : List Profile) (f : Profile → Profile),
      (∀ x ∈ l, f x = x) → l.map f = l := by
    intro l f h
    induction l with
    | nil => rfl
    | cons a l ih =>
      simp only [List.map_cons, h a (by simp)]
      rw [ih (fun x hx => h x (by simp [hx]))]
  by_cases hcontrib : req.session.is_contributor <;>
    · simp only [FXAAuthBackend.create_user, hnone, Option.isNone_none, Option.getD_none,
        hcontrib, saveProfile, setProducts, List.map_append]
      refine ⟨by trivial, ?_⟩
      simp only [baseCreateUser, newProfile, fxaLocaleOf]
      simp [hmap, map_replace_keep, hfresh, List.map_append]
      apply map_id_of_mem
      intro q hq
      have hne := hfresh q hq
      simp [Function.comp, hne]

/-- C7: for claims whose uid belongs to no existing profile and with
no authenticated session, `create_user` creates a user and a profile
with `is_fxa_migrated = True`, the claimed uid stored, and the locale
set to the first claims-provided locale when it is in
`SUMO_LANGUAGES` and to the configured `LANGUAGE_CODE` otherwise —
including when the claims locale is missing or `None` (given that the
supported-locale list does not list the empty string).  The
foreign-key hypothesis `hwfp` is the database invariant that profiles
reference existing users. -/
theorem create_user_new_migrated_profile (cfg : Settings) (db : Db) (req : Request)
    (claims : Claims)
    (hwfp : ∀ p ∈ db.profiles, ∃ u ∈ db.users, u.id = p.user_id)
    (huid : ∀ p ∈ db.profiles, p.fxa_uid ≠ claims.uid)
    (hsess : authedUserOf (some req) = none)
    (hempty : ¬ cfg.SUMO_LANGUAGES.contains "") :
    (FXAAuthBackend.create_user cfg db req claims).user ∈
      (FXAAuthBackend.create_user cfg db req claims).db.users ∧
    (∃ pr, findProfile (FXAAuthBackend.create_user cfg db req claims).db
        (FXAAuthBackend.create_user cfg db req claims).user.id = some pr ∧
      pr.is_fxa_migrated = true ∧
      pr.fxa_uid = claims.uid ∧
      pr.locale = (if cfg.SUMO_LANGUAGES.contains (fxaLocaleOf claims) then fxaLocaleOf claims
                   else cfg.LANGUAGE_CODE) ∧
      ((claims.locale = none ∨ claims.locale = some none) → pr.locale = cfg.LANGUAGE_CODE)) := by
  obtain ⟨huser, hdb⟩ := create_user_shape cfg db req claims hwfp
  have hfresh : ∀ p ∈ db.profiles, p.user_id ≠ freshId db := by
    intro p hp
    rcases hwfp p hp with ⟨u, hu, he⟩
    have := freshId_gt db u hu
    omega
  constructor
  · rw [huser, hdb]
    simp [baseCreateUser]
  · refine ⟨⟨freshId db, true, claims.uid, claims.avatar.getD "", claims.displayName.getD "",
      (if cfg.SUMO_LANGUAGES.contains (fxaLocaleOf claims) then fxaLocaleOf claims
       else cfg.LANGUAGE_CODE),
      db.products.filter (fun c => (claims.subscriptions.getD []).contains c)⟩,
      ?_, rfl, rfl, rfl, ?_⟩
    · rw [hdb, huser]
      unfold findProfile
      exact find?_append_singleton db.profiles _ (baseCreateUser db claims).id
        (fun r hr => by
          have := hfresh r hr
          simp only [baseCreateUser]
          omega)
        rfl
    · intro hl
      have hloc : fxaLocaleOf claims = "" := by
        rcases hl with h | h <;> simp [fxaLocaleOf, pyLocaleOrEmpty, h] <;> decide
      simp only [hloc]
      rw [if_neg (by simpa using hempty)]

/-- C7 (witness): creation on an empty database with an unsupported
claims locale falls back to the default locale. -/
theorem create_user_new_migrated_profile_witness :
    (FXAAuthBackend.create_user ⟨["en-US", "fr"], "en-US", none⟩ ⟨[], [], ["firefox"]⟩
      ⟨"/fxa/callback/", none, false, ⟨none, false⟩, "en-US"⟩
      ⟨some "uid9", some "z@x", none, none, some ["firefox"], some (some "xx,yy")⟩).user ∈
      (FXAAuthBackend.create_user ⟨["en-US", "fr"], "en-US", none⟩ ⟨[], [], ["firefox"]⟩
        ⟨"/fxa/callback/", none, false, ⟨none, false⟩, "en-US"⟩
        ⟨some "uid9", some "z@x", none, none, some ["firefox"], some (some "xx,yy")⟩).db.users ∧
    (∃ pr, findProfile (FXAAuthBackend.create_user ⟨["en-US", "fr"], "en-US", none⟩
          ⟨[], [], ["firefox"]⟩
          ⟨"/fxa/callback/", none, false, ⟨none, false⟩, "en-US"⟩
          ⟨some "uid9", some "z@x", none, none, some ["firefox"], some (some "xx,yy")⟩).db
        (FXAAuthBackend.create_user ⟨["en-US", "fr"], "en-US", none⟩ ⟨[], [], ["firefox"]⟩
          ⟨"/fxa/callback/", none, false, ⟨none, false⟩, "en-US"⟩
          ⟨some "uid9", some "z@x", none, none, some ["firefox"], some (some "xx,yy")⟩).user.id =
          some pr ∧
      pr.is_fxa_migrated = true ∧
      pr.fxa_uid = some "uid9" ∧
      pr.locale = (if (["en-US", "fr"] : List String).contains
          (fxaLocaleOf ⟨some "uid9", some "z@x", none, none, some ["firefox"], some (some "xx,yy")⟩)
        then fxaLocaleOf ⟨some "uid9", some "z@x", none, none, some ["firefox"], some (some "xx,yy")⟩
        else "en-US") ∧
      ((⟨some "uid9", some "z@x", none, none, some ["firefox"], some (some "xx,yy")⟩ : Claims).locale = none ∨
        (⟨some "uid9", some "z@x", none, none, some ["firefox"], some (some "xx,yy")⟩ : Claims).locale = some none →
        pr.locale = "en-US")) := by
  have h := create_user_new_migrated_profile ⟨["en-US", "fr"], "en-US", none⟩
    ⟨[], [], ["firefox"]⟩ ⟨"/fxa/callback/", none, false, ⟨none, false⟩, "en-US"⟩
    ⟨some "uid9", some "z@x", none, none, some ["firefox"], some (some "xx,yy")⟩
    (by intro p hp; cases hp) (by intro p hp; cases hp) rfl (by decide)
  exact ⟨h.1, h.2⟩

theorem updateFinish_ok (db : Db) (sess : Session) (infos : List String) (user : User)
    (ch : Bool) (profile : Profile) (claims : Claims) (subs : List String)
    (r : UpdateResult)
    (heq : updateFinish db sess infos user ch profile claims subs = .ok r)
    (hmem : ∃ q ∈ db.profiles, q.user_id = profile.user_id) :
    r.result = some user ∧
    ∃ pr, findProfile r.db profile.user_id = some pr ∧
      pr.products = db.products.filter (fun c => subs.contains c) := by
  unfold updateFinish at heq
  injection heq with h
  subst h
  have hprofs : (if ch then saveUser db user else db).profiles = db.profiles := by
    cases ch <;> rfl
  refine ⟨rfl, ?_⟩
  by_cases hname : profile.name = ""
  · simp only [findProfile, saveProfile, hprofs, hname, ite_true, ite_false, if_true, if_false,
      eq_self_iff_true, not_false_iff]
    exact ⟨_, find?_map_replace db.profiles
      ⟨profile.user_id, profile.is_fxa_migrated, profile.fxa_uid, claims.avatar.getD "",
        claims.displayName.getD "", profile.locale,
        db.products.filter (fun c => subs.contains c)⟩ hmem, rfl⟩
  · simp only [findProfile, saveProfile, hprofs, hname, ite_true, ite_false, if_true, if_false,
      eq_self_iff_true, not_false_iff]
    exact ⟨_, find?_map_replace db.profiles
      ⟨profile.user_id, profile.is_fxa_migrated, profile.fxa_uid, claims.avatar.getD "",
        profile.name, profile.locale,
        db.products.filter (fun c => subs.contains c)⟩ hmem, rfl⟩

theorem update_user_ok_products (db : Db) (sess : Session) (user : User) (claims : Claims)
    (r : UpdateResult)
    (heq : FXAAuthBackend.update_user db sess user claims = .ok r)
    (hres : r.result ≠ none) :
    ∃ pr, findProfile r.db user.id = some pr ∧
      pr.products = db.products.filter (fun c => (claims.subscriptions.getD []).contains c) := by
  cases hp : findProfile db user.id with
  | none =>
    rw [FXAAuthBackend.update_user] at heq
    rw [hp] at heq
    cases heq
  | some profile =>
    have hprofmem : profile ∈ db.profiles := by
      have h := hp
      unfold findProfile at h
      exact List.mem_of_find?_eq_some h
    have hpuid : profile.user_id = user.id := by
      have h := hp
      unfold findProfile at h
      have := List.find?_some h
      simpa using this
    rw [FXAAuthBackend.update_user] at heq
    rw [hp] at heq
    simp only at heq
    split_ifs at heq with h1 h2 h3 h4 h5 h6
    all_goals
      first
        | (injection heq with h
           subst h
           exact absurd rfl hres)
        | (obtain ⟨-, pr, hpr, hprod⟩ := updateFinish_ok _ _ _ _ _ _ _ _ _
             heq ⟨profile, hprofmem, rfl⟩
           have hpr' : findProfile r.db profile.user_id = some pr := hpr
           rw [hpuid] at hpr'
           exact ⟨pr, hpr', hprod⟩)

/-- C9: after every successful `create_user` and `update_user` the
profile's product set holds exactly the catalog products whose
codename is among the claims-supplied subscription codenames — the
previous contents are fully replaced (`clear` then `add`), never
merged.  The `create_user` part assumes the profile-references-user
foreign-key invariant; the `update_user` part covers every call that
returns a user. -/
theorem products_fully_replaced_from_claims (cfg : Settings) (db : Db) (req : Request)
    (sess : Session) (user : User) (claims : Claims) :
    ((∀ p ∈ db.profiles, ∃ u ∈ db.users, u.id = p.user_id) →
      ∃ pr, findProfile (FXAAuthBackend.create_user cfg db req claims).db
          (FXAAuthBackend.create_user cfg db req claims).user.id = some pr ∧
        ∀ c, c ∈ pr.products ↔ (c ∈ db.products ∧ c ∈ claims.subscriptions.getD [])) ∧
    (∀ r, FXAAuthBackend.update_user db sess user claims = .ok r → r.result ≠ none →
      ∃ pr, findProfile r.db user.id = some pr ∧
        ∀ c, c ∈ pr.products ↔ (c ∈ db.products ∧ c ∈ claims.subscriptions.getD [])) := by
  have hmemiff : ∀ (l subs : List String) (c : String),
      c ∈ l.filter (fun x => subs.contains x) ↔ (c ∈ l ∧ c ∈ subs) := by
    intro l subs c
    simp [List.mem_filter]
  constructor
  · intro hwfp
    obtain ⟨huser, hdb⟩ := create_user_shape cfg db req claims hwfp
    have hfresh : ∀ p ∈ db.profiles, p.user_id ≠ freshId db := by
      intro p hp
      rcases hwfp p hp with ⟨u, hu, he⟩
      have := freshId_gt db u hu
      omega
    refine ⟨⟨freshId db, true, claims.uid, claims.avatar.getD "", claims.displayName.getD "",
      (if cfg.SUMO_LANGUAGES.contains (fxaLocaleOf claims) then fxaLocaleOf claims
       else cfg.LANGUAGE_CODE),
      db.products.filter (fun c => (claims.subscriptions.getD []).contains c)⟩, ?_, ?_⟩
    · rw [hdb, huser]
      unfold findProfile
      exact find?_append_singleton db.profiles _ (baseCreateUser db claims).id
        (fun r hr => by
          have := hfresh r hr
          simp only [baseCreateUser]
          omega)
        rfl
    · intro c
      exact hmemiff db.products (claims.subscriptions.getD []) c
  · intro r heq hres
    obtain ⟨pr, hpr, hprod⟩ := update_user_ok_products db sess user claims r heq hres
    refine ⟨pr, hpr, ?_⟩
    intro c
    rw [hprod]
    exact hmemiff db.products (claims.subscriptions.getD []) c

/-- C9 (witness): creating a user against a one-product catalog with a
two-codename subscription claim yields a profile holding exactly the
catalog product that is subscribed. -/
theorem products_fully_replaced_from_claims_witness :
    ∃ pr, findProfile (FXAAuthBackend.create_user ⟨["en-US"], "en-US", none⟩
        ⟨[], [], ["firefox", "vpn"]⟩
        ⟨"/fxa/callback/", none, false, ⟨none, false⟩, "en-US"⟩
        ⟨some "uid1", some "w@x", none, none, some ["vpn", "pocket"], none⟩).db
      (FXAAuthBackend.create_user ⟨["en-US"], "en-US", none⟩
        ⟨[], [], ["firefox", "vpn"]⟩
        ⟨"/fxa/callback/", none, false, ⟨none, false⟩, "en-US"⟩
        ⟨some "uid1", some "w@x", none, none, some ["vpn", "pocket"], none⟩).user.id = some pr ∧
    ∀ c, c ∈ pr.products ↔
      (c ∈ (["firefox", "vpn"] : List String) ∧ c ∈ (["vpn", "pocket"] : List String)) :=
  (products_fully_replaced_from_claims ⟨["en-US"], "en-US", none⟩
    ⟨[], [], ["firefox", "vpn"]⟩
    ⟨"/fxa/callback/", none, false, ⟨none, false⟩, "en-US"⟩
    ⟨none, false⟩ ⟨1, "z", none, false, false⟩
    ⟨some "uid1", some "w@x", none, none, some ["vpn", "pocket"], none⟩).1
    (by intro p hp; cases hp)
